import Mathlib

/-!
Hospital ward backend (`src/server.js`): shallow embedding.

The server is an Express application over four Mongoose collections.  The
embedding keeps the record store as an explicit value (`Store`), each route
handler as a pure function from the store and the request to the new store and
the response, and the Mongoose calls the handlers make (`findOne`, `updateOne`,
`save`, `findByIdAndUpdate`, ...) as list functions on the collections.

Conventions taken from the libraries the source calls:

* a collection is the list of its documents in insertion order; `findOne`
  returns the first match and `updateOne` rewrites the first match;
* a JavaScript value that is `null` or `undefined` is `none`, and a filter on
  a field compares the two optional values: a `null` or `undefined` filter
  value matches the documents whose field is `null` or missing;
* an `ObjectId` is held as its 24-digit lower-case hexadecimal rendering, the
  string Mongoose stores when an id is written to a `String` path;
* casting a string that is not 24 hexadecimal digits to an `ObjectId` raises
  (Mongoose `CastError`; the 12-character strings that some versions of the
  driver also accept are not used below); a handler whose store call raises
  outside a `try` block sends no response, which is `none` in
  `Reply.response`;
* a schema `Date` is carried as its integer time value; no handler computes
  with one except to order readings by `timestamp`;
* what a run takes from outside the request and the store is its `Env`: the
  `_id` a new document is saved under, the clock, and the errors the store
  raises on the calls that a `try` block of a handler answers (the insert and
  the bed update of `POST /patients`, the insert of `POST /users/register`);
  the other store calls complete;
* a request field is a string, `null` or absent: `bedId` of another JSON type
  is not covered; `null` and absent are told apart (`Field`) where a schema
  default makes them differ, which is for `status`, `admissionDate` and `role`;
* a schema `Number` is the double the server holds, kept as its bits
  (`Double`), except `bedNumber`, which the bootstrap writes from its integer
  loop counter and is a natural number;
* the message of an error is the library's text and is not spelled out: an
  error is held by its kind (`StoreError`).
-/

namespace Hospital

/-! ## Identifiers -/

/-- Lower-case hexadecimal digit test. -/
def isHexDigit (c : Char) : Bool :=
  ('0' ≤ c && c ≤ '9') || ('a' ≤ c && c ≤ 'f')

/-- Fold an upper-case hexadecimal digit to lower case; other characters are kept. -/
def lowerHexDigit (c : Char) : Char :=
  if 'A' ≤ c ∧ c ≤ 'F' then Char.ofNat (c.toNat + 32) else c

/-- Test for the canonical rendering of an `ObjectId`: 24 lower-case hexadecimal digits. -/
def isObjectIdHex (s : String) : Bool :=
  s.data.length == 24 && s.data.all isHexDigit

/-- A document identifier (`_id`), held as its canonical hexadecimal string. -/
structure ObjectId where
  hex : String
  wf : isObjectIdHex hex = true

instance : DecidableEq ObjectId := fun a b =>
  if h : a.hex = b.hex then
    isTrue (by cases a; cases b; cases h; rfl)
  else
    isFalse (fun e => h (by rw [e]))

/-- Cast of a string to an `ObjectId`, as Mongoose does for an `_id` filter:
`none` stands for the `CastError` raised on a string that is not 24
hexadecimal digits. -/
def castObjectId (s : String) : Option ObjectId :=
  let t : String := ⟨s.data.map lowerHexDigit⟩
  if h : isObjectIdHex t = true then some ⟨t, h⟩ else none

/-- JavaScript truthiness of a value that is a string, `null` or `undefined`. -/
def truthy : Option String → Bool
  | none => false
  | some s => decide (s ≠ "")

/-! ## Values -/

/-- A schema `Number`: the IEEE 754 double the server holds, kept as its 64 bits.  No
handler computes with one. -/
structure Double where
  bits : Nat
  lt : bits < 2 ^ 64

instance : DecidableEq Double := fun a b =>
  if h : a.bits = b.bits then
    isTrue (by cases a; cases b; cases h; rfl)
  else
    isFalse (fun e => h (by rw [e]))

/-- A member of a request body on which a schema default depends: absent
(`undefined`), `null`, or a value. -/
inductive Field (α : Type) where
  | absent
  | null
  | value (a : α)

/-- The value stored for a path that has a default: the default stands in for an absent
member only, `null` is stored as it is. -/
def Field.stored {α : Type} (dflt : α) : Field α → Option α
  | .absent => some dflt
  | .null => none
  | .value a => some a

/-- The error a store call raises, by kind; `err.message` is the text the library gives
the error and is not spelled out. -/
inductive StoreError where
  | validation (paths : List String)
  | duplicateKey
  | raised (text : String)
deriving DecidableEq

/-! ## Schemas -/

/-- Document of `UserSchema`. -/
structure User where
  _id : ObjectId
  name : Option String
  email : String
  password : String
  role : Option String
  specialty : Option String
deriving DecidableEq

/-- Document of `PatientSchema`. -/
structure Patient where
  _id : ObjectId
  name : Option String
  age : Option Double
  gender : Option String
  diagnosis : Option String
  status : Option String
  admissionDate : Option Int
  assignedBedId : Option String
  assignedDoctorId : Option String
deriving DecidableEq

/-- Document of `BedSchema` (the `_id` of a bed is never read by the server and is left out). -/
structure Bed where
  bedId : Option String
  roomNumber : Option String
  bedNumber : Option Nat
  isOccupied : Bool
  currentPatientId : Option String
deriving DecidableEq

/-- Document of `VitalSchema` (the `_id` of a reading is never read by the server and is left out). -/
structure Vital where
  bedId : Option String
  heartRate : Option Double
  spo2 : Option Double
  temperature : Option Double
  respiration : Option Double
  timestamp : Int
deriving DecidableEq

/-- The record store: the four collections. -/
structure Store where
  users : List User
  patients : List Patient
  beds : List Bed
  vitals : List Vital
deriving DecidableEq

/-- The store with no document in any collection. -/
def Store.empty : Store := ⟨[], [], [], []⟩

/-! ## Store calls -/

/-- Filter `{ bedId }` on the bed collection. -/
def Bed.matches (bedId : Option String) (b : Bed) : Bool :=
  decide (b.bedId = bedId)

/-- Call `Bed.findOne({ bedId })`: the first bed whose `bedId` is the given one. -/
def Bed.findOne (beds : List Bed) (bedId : Option String) : Option Bed :=
  beds.find? (Bed.matches bedId)

/-- Rewrite the first element satisfying `p` with `f`; the list is returned as it is when none does. -/
def updateFirst {α : Type} (p : α → Bool) (f : α → α) : List α → List α
  | [] => []
  | a :: as => if p a then f a :: as else a :: updateFirst p f as

/-- Call `Bed.updateOne({ bedId }, update)`: the update is applied to the first matching bed. -/
def Bed.updateOne (beds : List Bed) (bedId : Option String) (update : Bed → Bed) : List Bed :=
  updateFirst (Bed.matches bedId) update beds

/-- Call `Bed.countDocuments()`. -/
def Bed.countDocuments (beds : List Bed) : Nat :=
  beds.length

/-- Call `Bed.insertMany(docs)`. -/
def Bed.insertMany (beds docs : List Bed) : List Bed :=
  beds ++ docs

/-- Call `Patient.findById(id)` once the id is cast: the first patient with that `_id`. -/
def Patient.findById (patients : List Patient) (id : ObjectId) : Option Patient :=
  patients.find? (fun p => decide (p._id = id))

/-- Call `Patient.findByIdAndUpdate(id, update)` once the id is cast. -/
def Patient.findByIdAndUpdate (patients : List Patient) (id : ObjectId)
    (update : Patient → Patient) : List Patient :=
  updateFirst (fun p => decide (p._id = id)) update patients

/-- Call `newPatient.save({ session })` of a new patient: the store may raise (`fault`),
and it refuses a document whose `_id` is already in the collection. -/
def Patient.save (patients : List Patient) (doc : Patient) (fault : Option String) :
    Except StoreError (List Patient × Patient) :=
  match fault with
  | some msg => .error (.raised msg)
  | none =>
    if patients.any (fun p => decide (p._id = doc._id)) then
      .error .duplicateKey
    else
      .ok (patients ++ [doc], doc)

/-- Insert `v` into a list ordered by `timestamp` descending, after the readings that
are not older than it. -/
def insertByTimestampDesc (v : Vital) : List Vital → List Vital
  | [] => [v]
  | w :: ws =>
    if w.timestamp < v.timestamp then v :: w :: ws else w :: insertByTimestampDesc v ws

/-- The cursor order `.sort({ timestamp: -1 })`. -/
def sortByTimestampDesc (vs : List Vital) : List Vital :=
  vs.foldr insertByTimestampDesc []

/-- Call `Vital.findOne({ bedId }).sort({ timestamp: -1 })`: the first reading of the bed in
descending order of `timestamp`. -/
def Vital.findLatest (vitals : List Vital) (bedId : Option String) : Option Vital :=
  (sortByTimestampDesc (vitals.filter (fun v => decide (v.bedId = bedId)))).head?

/-- Order of `.sort({ roomNumber: 1, bedNumber: 1 })` on two field values: a missing
value sorts before a present one. -/
def optLe {α : Type} (le : α → α → Bool) : Option α → Option α → Bool
  | none, _ => true
  | some _, none => false
  | some a, some b => le a b

/-- Comparison of two beds by room number, then by bed number. -/
def Bed.sortLe (a b : Bed) : Bool :=
  if a.roomNumber = b.roomNumber then
    optLe (fun m n => decide (m ≤ n)) a.bedNumber b.bedNumber
  else
    optLe (fun x y => decide (x ≤ y)) a.roomNumber b.roomNumber

/-- Insertion into a list ordered by `Bed.sortLe`. -/
def insertBed (b : Bed) : List Bed → List Bed
  | [] => [b]
  | c :: cs => if Bed.sortLe b c then b :: c :: cs else c :: insertBed b cs

/-- Call `Bed.find().sort({ roomNumber: 1, bedNumber: 1 })`. -/
def Bed.findSorted (beds : List Bed) : List Bed :=
  beds.foldr insertBed []

/-! ## Sessions -/

/-- A client session with an open transaction: writes made through the session go to
`staged`; `base` is the committed store. -/
structure Session where
  base : Store
  staged : Store

/-- Call `session.startTransaction()`. -/
def startTransaction (s : Store) : Session :=
  ⟨s, s⟩

/-- Call `session.commitTransaction()`: the staged writes become the store. -/
def commitTransaction (t : Session) : Store :=
  t.staged

/-- Call `session.abortTransaction()`: the staged writes are dropped. -/
def abortTransaction (t : Session) : Store :=
  t.base

/-! ## Requests and responses -/

/-- JSON body sent by `res.json`, one constructor per shape the handlers send. -/
inductive Payload where
  | plain
  | message (text : String)
  | error (err : StoreError)
  | user (u : User)
  | userCreated (text : String) (u : User)
  | users (data : List User)
  | beds (data : List Bed)
  | patients (data : List Patient)
  | patient (data : Patient)
  | patientWithVitals (data : Patient) (vitals : Option Vital)
  | vital (reading : Option Vital)
deriving DecidableEq

/-- An HTTP response: status code, the `success` flag when the body carries one, and
the rest of the body. -/
structure Response where
  status : Nat
  success : Option Bool
  payload : Payload
deriving DecidableEq

/-- Outcome of a handler run: the store it leaves and the response it sent (`none`
when the handler raised before sending one). -/
structure Reply where
  store : Store
  response : Option Response
deriving DecidableEq

/-- What a handler run takes from outside the request and the store. -/
structure Env where
  /-- the `_id` a document created by the run is saved under: the one the body carries,
  or else the one the driver generates -/
  newId : ObjectId
  /-- the value of `Date.now()` -/
  now : Int
  /-- error raised by the store on the insert of the run, if it raises -/
  insertError : Option String
  /-- error raised by the store on the bed update of the run, if it raises -/
  updateError : Option String

/-- Body of `POST /patients`: `bedId` and the patient fields the schema keeps. -/
structure PatientBody where
  bedId : Option String
  name : Option String
  age : Option Double
  gender : Option String
  diagnosis : Option String
  status : Field String
  admissionDate : Field Int
  assignedDoctorId : Option String

/-- Body of `POST /users/register`. -/
structure UserBody where
  name : Option String
  email : Option String
  password : Option String
  role : Field String
  specialty : Option String

/-! ## Bootstrap -/

/-- The literal `rooms` of `initializeDatabase`. -/
def rooms : List String := ["10", "209", "304"]

/-- The object pushed for room `room` and loop index `i`. -/
def seedBed (room : String) (i : Nat) : Bed :=
  { bedId := some ("R" ++ room ++ "-B" ++ toString i)
    roomNumber := some room
    bedNumber := some i
    isOccupied := false
    currentPatientId := none }

/-- The array `beds` at the end of `rooms.forEach`: for each room in turn, the loop
`for (let i = 1; i <= 10; i++)` pushes one bed. -/
def seedBeds : List Bed :=
  rooms.foldl
    (fun beds room => (List.range' 1 10).foldl (fun beds i => beds ++ [seedBed room i]) beds)
    []

/-- The function `initializeDatabase`: beds are inserted when the collection counts no
document.  Its second block only logs a hint and writes nothing. -/
def initializeDatabase (s : Store) : Store :=
  if Bed.countDocuments s.beds = 0 then
    { s with beds := Bed.insertMany s.beds seedBeds }
  else
    s

/-! ## Handlers -/

/-- Handler of `POST /login`. -/
def postLogin (s : Store) (email password : Option String) : Reply :=
  match s.users.find? (fun u => decide (some u.email = email ∧ some u.password = password)) with
  | some user => ⟨s, some ⟨200, some true, .user user⟩⟩
  | none => ⟨s, some ⟨401, some false, .message "Invalid credentials"⟩⟩

/-- The `enum` of the `role` path. -/
def roles : List String := ["ADMIN", "DOCTOR", "NURSE"]

/-- The paths of `new User(req.body)` that fail validation: `email` and `password` are
required, so a missing, `null` or empty one fails; `role` fails on a string outside the
enum. -/
def User.invalidPaths (body : UserBody) : List String :=
  (if truthy body.email then [] else ["email"]) ++
  (if truthy body.password then [] else ["password"]) ++
  (match body.role with
    | .value r => if r ∈ roles then [] else ["role"]
    | _ => [])

/-- Helper `new User(req.body)` followed by `user.save()`: schema validation, the default
`NURSE` for an absent `role`, then the insert, which the store may fail (`fault`) and which
the unique index on `email` and the one on `_id` may refuse. -/
def User.save (users : List User) (id : ObjectId) (body : UserBody) (fault : Option String) :
    Except StoreError (List User × User) :=
  match body.email, body.password with
  | some email, some password =>
    if User.invalidPaths body ≠ [] then
      .error (.validation (User.invalidPaths body))
    else
      match fault with
      | some msg => .error (.raised msg)
      | none =>
        if users.any (fun u => decide (u._id = id ∨ u.email = email)) then
          .error .duplicateKey
        else
          let user : User :=
            ⟨id, body.name, email, password, body.role.stored "NURSE", body.specialty⟩
          .ok (users ++ [user], user)
  | _, _ => .error (.validation (User.invalidPaths body))

/-- Handler of `POST /users/register`. -/
def postUsersRegister (s : Store) (body : UserBody) (env : Env) : Reply :=
  match User.save s.users env.newId body env.insertError with
  | .ok (users, user) => ⟨{ s with users := users }, some ⟨200, some true, .userCreated "User created" user⟩⟩
  | .error msg => ⟨s, some ⟨400, some false, .error msg⟩⟩

/-- Handler of `GET /users`. -/
def getUsers (s : Store) : Reply :=
  ⟨s, some ⟨200, some true, .users s.users⟩⟩

/-- Handler of `DELETE /users/:id`. -/
def deleteUser (s : Store) (id : String) : Reply :=
  match castObjectId id with
  | none => ⟨s, none⟩
  | some oid =>
    ⟨{ s with users := s.users.eraseP (fun u => decide (u._id = oid)) }, some ⟨200, some true, .plain⟩⟩

/-- Handler of `GET /beds`. -/
def getBeds (s : Store) : Reply :=
  ⟨s, some ⟨200, some true, .beds (Bed.findSorted s.beds)⟩⟩

/-- Handler of `GET /patients`. -/
def getPatients (s : Store) : Reply :=
  ⟨s, some ⟨200, some true, .patients s.patients⟩⟩

/-- The document `new Patient({ ...patientData, assignedBedId: bedId })`, schema defaults
applied. -/
def Patient.new (id : ObjectId) (now : Int) (body : PatientBody) : Patient :=
  { _id := id
    name := body.name
    age := body.age
    gender := body.gender
    diagnosis := body.diagnosis
    status := body.status.stored "Stable"
    admissionDate := body.admissionDate.stored now
    assignedBedId := body.bedId
    assignedDoctorId := body.assignedDoctorId }

/-- The update `{ isOccupied: true, currentPatientId: savedPatient._id }`. -/
def Bed.occupy (patientId : ObjectId) (b : Bed) : Bed :=
  { b with isOccupied := true, currentPatientId := some patientId.hex }

/-- The update `{ isOccupied: false, currentPatientId: null }`. -/
def Bed.release (b : Bed) : Bed :=
  { b with isOccupied := false, currentPatientId := none }

/-- The update `{ status: "Discharged", assignedBedId: null }`. -/
def Patient.discharge (p : Patient) : Patient :=
  { p with status := some "Discharged", assignedBedId := none }

/-- The response of the `catch` block of `POST /patients`. -/
def serverError (err : StoreError) : Response :=
  ⟨500, some false, .error err⟩

/-- Handler of `POST /patients`.  Both writes go through the session; the `catch` block
aborts the transaction and answers 500. -/
def postPatients (s : Store) (body : PatientBody) (env : Env) : Reply :=
  let session := startTransaction s
  let newPatient := Patient.new env.newId env.now body
  match Patient.save session.staged.patients newPatient env.insertError with
  | .error msg => ⟨abortTransaction session, some (serverError msg)⟩
  | .ok (patients, savedPatient) =>
    let session : Session := { session with staged := { session.staged with patients := patients } }
    if truthy body.bedId then
      match env.updateError with
      | some msg => ⟨abortTransaction session, some (serverError (.raised msg))⟩
      | none =>
        let beds := Bed.updateOne session.staged.beds body.bedId (Bed.occupy savedPatient._id)
        let session : Session := { session with staged := { session.staged with beds := beds } }
        ⟨commitTransaction session, some ⟨200, some true, .patient savedPatient⟩⟩
    else
      ⟨commitTransaction session, some ⟨200, some true, .patient savedPatient⟩⟩

/-- Handler of `GET /patients/:id`. -/
def getPatientById (s : Store) (id : String) : Reply :=
  match castObjectId id with
  | none => ⟨s, none⟩
  | some oid =>
    match Patient.findById s.patients oid with
    | none => ⟨s, some ⟨404, some false, .plain⟩⟩
    | some patient =>
      let vital := Vital.findLatest s.vitals patient.assignedBedId
      ⟨s, some ⟨200, some true, .patientWithVitals patient vital⟩⟩

/-- Handler of `GET /vitals/latest/:bedId`. -/
def getVitalsLatest (s : Store) (bedId : String) : Reply :=
  ⟨s, some ⟨200, none, .vital (Vital.findLatest s.vitals (some bedId))⟩⟩

/-- Handler of `POST /beds/discharge`.  The patient update runs when
`bed && bed.currentPatientId` is truthy, and raises when the reference does not cast to
an `ObjectId`; the bed update follows. -/
def postBedsDischarge (s : Store) (bedId : Option String) : Reply :=
  let bed := Bed.findOne s.beds bedId
  let ref := bed.bind (fun b => b.currentPatientId)
  let updated : Option (List Patient) :=
    if truthy ref then
      (ref.bind castObjectId).map
        (fun oid => Patient.findByIdAndUpdate s.patients oid Patient.discharge)
    else
      some s.patients
  match updated with
  | none => ⟨s, none⟩
  | some patients =>
    ⟨{ s with patients := patients, beds := Bed.updateOne s.beds bedId Bed.release },
      some ⟨200, some true, .message "Patient discharged"⟩⟩

/-- The requests the server routes. -/
inductive Request where
  | login (email password : Option String)
  | register (body : UserBody)
  | listUsers
  | deleteUser (id : String)
  | listBeds
  | listPatients
  | createPatient (body : PatientBody)
  | getPatient (id : String)
  | latestVital (bedId : String)
  | discharge (bedId : Option String)

/-- Dispatch of a request to its handler. -/
def handle (s : Store) (env : Env) : Request → Reply
  | .login email password => postLogin s email password
  | .register body => postUsersRegister s body env
  | .listUsers => getUsers s
  | .deleteUser id => deleteUser s id
  | .listBeds => getBeds s
  | .listPatients => getPatients s
  | .createPatient body => postPatients s body env
  | .getPatient id => getPatientById s id
  | .latestVital bedId => getVitalsLatest s bedId
  | .discharge bedId => postBedsDischarge s bedId

/-- States reached from the empty store by the bootstrap followed by runs of
`POST /patients` and `POST /beds/discharge`. -/
inductive Reachable : Store → Prop where
  | boot : Reachable (initializeDatabase Store.empty)
  | createPatient {s : Store} (body : PatientBody) (env : Env) :
      Reachable s → Reachable (postPatients s body env).store
  | discharge {s : Store} (bedId : Option String) :
      Reachable s → Reachable (postBedsDischarge s bedId).store

/-! ## Concrete inputs -/

/-- A sample `ObjectId`. -/
def idA : ObjectId := ⟨"64b7f0c2a1d3e4f5a6b7c8d9", by decide⟩

/-- A second sample `ObjectId`. -/
def idB : ObjectId := ⟨"64b7f0c2a1d3e4f5a6b7c8da", by decide⟩

/-- The double 41. -/
def d41 : Double := ⟨0x4044800000000000, by decide⟩

/-- The double 70. -/
def d70 : Double := ⟨0x4051800000000000, by decide⟩

/-- The double 72. -/
def d72 : Double := ⟨0x4052000000000000, by decide⟩

/-- An environment whose store raises nothing, creating under `id`. -/
def Env.quiet (id : ObjectId) : Env := ⟨id, 1700000000000, none, none⟩

/-- A `POST /patients` body that carries `bedId` and a name only. -/
def bodyFor (bedId : Option String) : PatientBody :=
  ⟨bedId, some "Asha", some d41, none, none, .absent, .absent, none⟩

/-- The store after the bootstrap on an empty store. -/
def seeded : Store := initializeDatabase Store.empty

/-- A store with one occupied bed and the patient in it. -/
def wardStore : Store :=
  ⟨[], [⟨idA, some "Asha", some d41, none, none, some "Stable", some 0, some "R10-B1", none⟩],
    [⟨some "R10-B1", some "10", some 1, true, some idA.hex⟩,
     ⟨some "R10-B2", some "10", some 2, false, none⟩],
    [⟨some "R10-B1", some d70, none, none, none, 100⟩,
     ⟨some "R10-B2", some d72, none, none, none, 300⟩,
     ⟨some "R10-B1", some d72, none, none, none, 200⟩]⟩

/-! ## Reachable states -/

/-- States reached from the empty store by the bootstrap followed by runs of
`POST /patients` and `POST /beds/discharge` in which every `POST /patients` that carries a
`bedId` names a bed that exists and is unoccupied when the request is handled. -/
inductive ReachableAssigningFreeBeds : Store → Prop where
  | boot : ReachableAssigningFreeBeds (initializeDatabase Store.empty)
  | createPatient {s : Store} (body : PatientBody) (env : Env) :
      ReachableAssigningFreeBeds s →
      (∀ bedId, body.bedId = some bedId →
        ∃ b, Bed.findOne s.beds (some bedId) = some b ∧ b.isOccupied = false) →
      ReachableAssigningFreeBeds (postPatients s body env).store
  | discharge {s : Store} (bedId : Option String) :
      ReachableAssigningFreeBeds s → ReachableAssigningFreeBeds (postBedsDischarge s bedId).store

/-- Conditions kept by the bootstrap and by every run of the two workflows as long as
beds are assigned only while free: the bed identifiers are those of the seeded inventory,
occupancy flags agree with the patient references, patient ids are pairwise distinct, and
every bed reference of a patient is answered by the bed's patient reference. -/
structure Linked (s : Store) : Prop where
  bedIds : s.beds.map (fun b => b.bedId) = seedBeds.map (fun b => b.bedId)
  occupancy : ∀ b ∈ s.beds, (b.isOccupied = true ↔ b.currentPatientId ≠ none)
  patientIds : (s.patients.map (fun p => p._id)).Nodup
  backRef : ∀ p ∈ s.patients, ∀ bedId, p.assignedBedId = some bedId →
    ∃ b ∈ s.beds, b.bedId = some bedId ∧ b.currentPatientId = some p._id.hex

/-! ## More concrete inputs -/

/-- The seeded store after the admission of one patient to bed `R10-B1`. -/
def admitted : Store :=
  (postPatients seeded (bodyFor (some "R10-B1")) (Env.quiet idA)).store

/-- The bed `R10-B1` once the sample patient is assigned to it. -/
def admittedBed : Bed :=
  ⟨some "R10-B1", some "10", some 1, true, some idA.hex⟩

/-- The seeded store after two admissions to bed `R10-B1`, the second while the bed is
occupied. -/
def admittedTwice : Store :=
  (postPatients admitted (bodyFor (some "R10-B1")) (Env.quiet idB)).store

/-- An environment whose store raises on the bed update. -/
def Env.failingUpdate (id : ObjectId) : Env := ⟨id, 1700000000000, none, some "WriteConflict"⟩

/-- The sample patient of `wardStore`. -/
def wardPatient : Patient :=
  ⟨idA, some "Asha", some d41, none, none, some "Stable", some 0, some "R10-B1", none⟩

/-- The occupied bed of `wardStore`. -/
def wardBed : Bed :=
  ⟨some "R10-B1", some "10", some 1, true, some idA.hex⟩

/-- The store `wardStore` after the discharge of its bed `R10-B1`. -/
def dischargedStore : Store :=
  (postBedsDischarge wardStore (some "R10-B1")).store

end Hospital

namespace Hospital

/-! ## Lemmas on the store calls -/

theorem length_updateFirst {α : Type} (p : α → Bool) (f : α → α) (l : List α) :
    (updateFirst p f l).length = l.length := by
  induction l with
  | nil => rfl
  | cons a as ih =>
    unfold updateFirst
    split <;> simp [ih]

theorem find?_updateFirst {α : Type} (p : α → Bool) (f : α → α)
    (hpf : ∀ a, p a = true → p (f a) = true) (l : List α) :
    (updateFirst p f l).find? p = (l.find? p).map f := by
  induction l with
  | nil => rfl
  | cons a as ih =>
    unfold updateFirst
    by_cases h : p a = true
    · simp [h, hpf a h]
    · simp [h, ih]

theorem updateFirst_eq_self {α : Type} (p : α → Bool) (f : α → α) (l : List α)
    (h : ∀ a ∈ l, p a = false) : updateFirst p f l = l := by
  induction l with
  | nil => rfl
  | cons a as ih =>
    unfold updateFirst
    have ha : p a = false := h a (List.mem_cons_self a as)
    have hrest : updateFirst p f as = as := ih (fun b hb => h b (List.mem_cons_of_mem a hb))
    simp [ha, hrest]

theorem mem_updateFirst {α : Type} (p : α → Bool) (f : α → α) (l : List α) (b : α)
    (h : b ∈ updateFirst p f l) : b ∈ l ∨ ∃ a ∈ l, p a = true ∧ b = f a := by
  induction l with
  | nil => simp [updateFirst] at h
  | cons a as ih =>
    unfold updateFirst at h
    split at h
    · rename_i hp
      rcases List.mem_cons.mp h with h | h
      · exact Or.inr ⟨a, List.mem_cons_self a as, hp, h⟩
      · exact Or.inl (List.mem_cons_of_mem a h)
    · rcases List.mem_cons.mp h with h | h
      · exact Or.inl (h ▸ List.mem_cons_self a as)
      · rcases ih h with h1 | ⟨c, hc, hpc, hbc⟩
        · exact Or.inl (List.mem_cons_of_mem a h1)
        · exact Or.inr ⟨c, List.mem_cons_of_mem a hc, hpc, hbc⟩

theorem getElem?_updateFirst_of_not {α : Type} (p : α → Bool) (f : α → α) (l : List α)
    (i : Nat) (a : α) (h : l[i]? = some a) (hp : p a = false) :
    (updateFirst p f l)[i]? = some a := by
  induction l generalizing i with
  | nil => simp at h
  | cons c cs ih =>
    unfold updateFirst
    cases i with
    | zero =>
      simp only [List.getElem?_cons_zero, Option.some.injEq] at h
      subst h
      simp [hp]
    | succ j =>
      simp only [List.getElem?_cons_succ] at h
      by_cases hc : p c = true
      · simp [hc, h]
      · simp [hc, ih j h]

theorem map_updateFirst {α β : Type} (p : α → Bool) (f : α → α) (g : α → β)
    (hg : ∀ a, g (f a) = g a) (l : List α) : (updateFirst p f l).map g = l.map g := by
  induction l with
  | nil => rfl
  | cons a as ih =>
    unfold updateFirst
    split <;> simp [ih, hg]

theorem lowerHexDigit_of_isHexDigit (c : Char) (h1 : isHexDigit c = true) :
    lowerHexDigit c = c := by
  unfold lowerHexDigit
  split
  · rename_i hu
    exfalso
    simp only [isHexDigit, Bool.or_eq_true, Bool.and_eq_true, decide_eq_true_eq] at h1
    simp only [Char.le_def, UInt32.le_def, BitVec.le_def] at h1 hu
    have e0 : ('0' : Char).val.toBitVec.toNat = 48 := by decide
    have e9 : ('9' : Char).val.toBitVec.toNat = 57 := by decide
    have ea : ('a' : Char).val.toBitVec.toNat = 97 := by decide
    have ef : ('f' : Char).val.toBitVec.toNat = 102 := by decide
    have eA : ('A' : Char).val.toBitVec.toNat = 65 := by decide
    have eF : ('F' : Char).val.toBitVec.toNat = 70 := by decide
    rw [e0, e9, ea, ef] at h1
    rw [eA, eF] at hu
    omega
  · rfl

theorem map_lowerHexDigit_eq (l : List Char) (h : l.all isHexDigit = true) :
    l.map lowerHexDigit = l := by
  induction l with
  | nil => rfl
  | cons c cs ih =>
    simp only [List.all_cons, Bool.and_eq_true] at h
    simp [lowerHexDigit_of_isHexDigit c h.1, ih h.2]

theorem castObjectId_hex (id : ObjectId) : castObjectId id.hex = some id := by
  cases id with
  | mk hex wf =>
    have hall : hex.data.all isHexDigit = true := by
      have h := wf
      unfold isObjectIdHex at h
      simp only [Bool.and_eq_true] at h
      exact h.2
    have hmap : (⟨hex.data.map lowerHexDigit⟩ : String) = hex := by
      rw [map_lowerHexDigit_eq _ hall]
    unfold castObjectId
    simp only [hmap, wf, dif_pos]

theorem ObjectId.hex_ne_empty (id : ObjectId) : id.hex ≠ "" := by
  intro h
  have hwf := id.wf
  rw [h] at hwf
  exact absurd hwf (by decide)

theorem truthy_hex (id : ObjectId) : truthy (some id.hex) = true := by
  simp [truthy, ObjectId.hex_ne_empty]

theorem castObjectId_ne_empty (ref : String) (id : ObjectId)
    (h : castObjectId ref = some id) : ref ≠ "" := by
  intro e
  have hnone : castObjectId "" = none := by decide
  rw [e, hnone] at h
  exact Option.noConfusion h

theorem initializeDatabase_beds_of_empty (s : Store) (h : s.beds = []) :
    (initializeDatabase s).beds = seedBeds := by
  simp [initializeDatabase, Bed.countDocuments, Bed.insertMany, h]

theorem initializeDatabase_beds_of_nonempty (s : Store) (h : s.beds ≠ []) :
    (initializeDatabase s).beds = s.beds := by
  have hlen : s.beds.length ≠ 0 := fun e => h (List.length_eq_zero.mp e)
  simp [initializeDatabase, Bed.countDocuments, hlen]

/-- C10: the bootstrap on an empty bed collection leaves exactly 30 beds: for each of the
rooms "10", "209" and "304" the beds of the room carry the bed numbers 1 to 10, once each;
every bed belongs to one of the three rooms, has a bed number between 1 and 10, the
identifier "R" + roomNumber + "-B" + bedNumber, is unoccupied and has no patient reference.
On a non-empty bed collection the bootstrap leaves the collection as it is. -/
theorem initializeDatabase_seeds_inventory (s : Store) :
    (s.beds = [] →
      (initializeDatabase s).beds.length = 30 ∧
      (∀ room ∈ ["10", "209", "304"],
        (((initializeDatabase s).beds.filter (fun b => decide (b.roomNumber = some room))).map
          (fun b => b.bedNumber)) = [1, 2, 3, 4, 5, 6, 7, 8, 9, 10].map some) ∧
      (∀ b ∈ (initializeDatabase s).beds,
        ∃ room ∈ ["10", "209", "304"], ∃ n ∈ [1, 2, 3, 4, 5, 6, 7, 8, 9, 10],
          b.roomNumber = some room ∧ b.bedNumber = some n ∧
          b.bedId = some ("R" ++ room ++ "-B" ++ toString n) ∧
          b.isOccupied = false ∧ b.currentPatientId = none)) ∧
    (s.beds ≠ [] → (initializeDatabase s).beds = s.beds) := by
  refine ⟨fun h => ?_, initializeDatabase_beds_of_nonempty s⟩
  rw [initializeDatabase_beds_of_empty s h]
  refine ⟨by decide, by decide, by decide⟩

/-- Instance of C10 on the empty store and on a store that already has beds. -/
theorem initializeDatabase_seeds_inventory_witness :
    (initializeDatabase Store.empty).beds.length = 30 ∧
    (initializeDatabase wardStore).beds = wardStore.beds :=
  ⟨((initializeDatabase_seeds_inventory Store.empty).1 rfl).1,
    (initializeDatabase_seeds_inventory wardStore).2 (by decide)⟩

theorem Patient.save_of_fresh (ps : List Patient) (doc : Patient)
    (hfresh : ∀ p ∈ ps, p._id ≠ doc._id) :
    Patient.save ps doc none = .ok (ps ++ [doc], doc) := by
  have hany : ps.any (fun p => decide (p._id = doc._id)) = false := by
    rw [List.any_eq_false]
    intro p hp
    simpa using hfresh p hp
  simp [Patient.save, hany]

theorem Patient.save_ok (ps : List Patient) (doc : Patient) (fault : Option String)
    (r : List Patient × Patient) (h : Patient.save ps doc fault = .ok r) :
    fault = none ∧ (∀ p ∈ ps, p._id ≠ doc._id) ∧ r = (ps ++ [doc], doc) := by
  unfold Patient.save at h
  cases fault with
  | some msg => simp at h
  | none =>
    simp only at h
    split at h
    · simp at h
    · rename_i hany
      simp only [Except.ok.injEq] at h
      refine ⟨rfl, ?_, h.symm⟩
      intro p hp e
      apply hany
      rw [List.any_eq_true]
      exact ⟨p, hp, by simpa using e⟩

theorem Patient.findById_append_fresh (ps : List Patient) (doc : Patient)
    (hfresh : ∀ p ∈ ps, p._id ≠ doc._id) :
    Patient.findById (ps ++ [doc]) doc._id = some doc := by
  unfold Patient.findById
  rw [List.find?_append]
  have hnone : List.find? (fun p => decide (p._id = doc._id)) ps = none := by
    rw [List.find?_eq_none]
    intro p hp
    simpa using hfresh p hp
  simp [hnone]

theorem Bed.findOne_updateOne (beds : List Bed) (bedId : Option String) (f : Bed → Bed)
    (hf : ∀ b, (f b).bedId = b.bedId) :
    Bed.findOne (Bed.updateOne beds bedId f) bedId = (Bed.findOne beds bedId).map f := by
  unfold Bed.findOne Bed.updateOne
  apply find?_updateFirst
  intro a ha
  simpa [Bed.matches, hf a] using ha

theorem postPatients_success_assigns (s : Store) (body : PatientBody) (env : Env)
    (bedId : String) (b : Bed)
    (hbody : body.bedId = some bedId) (hne : bedId ≠ "")
    (hbed : Bed.findOne s.beds (some bedId) = some b)
    (hok : ∃ r, (postPatients s body env).response = some r ∧ r.success = some true) :
    ∃ p b',
      (postPatients s body env).response = some ⟨200, some true, .patient p⟩ ∧
      p._id = env.newId ∧
      p ∈ (postPatients s body env).store.patients ∧
      Patient.findById (postPatients s body env).store.patients env.newId = some p ∧
      p.assignedBedId = some bedId ∧
      Bed.findOne (postPatients s body env).store.beds (some bedId) = some b' ∧
      b'.isOccupied = true ∧
      b'.currentPatientId = some p._id.hex := by
  have htruthy : truthy body.bedId = true := by simp [hbody, truthy, hne]
  obtain ⟨r, hr, hsucc⟩ := hok
  unfold postPatients at hr ⊢
  simp only [startTransaction, abortTransaction, commitTransaction, htruthy, if_true] at hr ⊢
  cases hsave : Patient.save s.patients (Patient.new env.newId env.now body) env.insertError with
  | error msg =>
    rw [hsave] at hr
    simp only [Option.some.injEq] at hr
    rw [← hr] at hsucc
    simp [serverError] at hsucc
  | ok res =>
    obtain ⟨_, hfresh, hres⟩ := Patient.save_ok _ _ _ _ hsave
    subst hres
    rw [hsave] at hr
    simp only at hr ⊢
    cases hupd : env.updateError with
    | some msg =>
      rw [hupd] at hr
      simp only [Option.some.injEq] at hr
      rw [← hr] at hsucc
      simp [serverError] at hsucc
    | none =>
      simp only
      refine ⟨Patient.new env.newId env.now body, Bed.occupy env.newId b, rfl, rfl, ?_, ?_, ?_, ?_, rfl, rfl⟩
      · simp
      · exact Patient.findById_append_fresh _ _ hfresh
      · simpa [Patient.new] using hbody
      · have := Bed.findOne_updateOne s.beds body.bedId (Bed.occupy env.newId) (fun _ => rfl)
        rw [hbody] at this ⊢
        rw [hbed] at this
        simpa [Patient.new] using this

/-- C5: for every store and every `POST /patients`, when the patient insert raises, or
the bed update is attempted and raises, the response is 500 with `success = false` and the
store after the call is the store before it: no patient is added, no bed is modified. -/
theorem postPatients_failure_rolls_back (s : Store) (body : PatientBody) (env : Env)
    (hfail :
      (∃ msg, Patient.save s.patients (Patient.new env.newId env.now body) env.insertError
        = .error msg) ∨
      (truthy body.bedId = true ∧ env.updateError ≠ none)) :
    (∃ msg, (postPatients s body env).response = some ⟨500, some false, .error msg⟩) ∧
    (postPatients s body env).store = s ∧
    (postPatients s body env).store.patients = s.patients ∧
    (postPatients s body env).store.beds = s.beds := by
  have key : (∃ msg, (postPatients s body env).response = some ⟨500, some false, .error msg⟩) ∧
      (postPatients s body env).store = s := by
    unfold postPatients
    simp only [startTransaction, abortTransaction, commitTransaction, serverError]
    cases hsave : Patient.save s.patients (Patient.new env.newId env.now body) env.insertError with
    | error msg => exact ⟨⟨msg, rfl⟩, rfl⟩
    | ok res =>
      rcases hfail with ⟨msg, hmsg⟩ | ⟨htruthy, hupd⟩
      · rw [hsave] at hmsg
        exact Except.noConfusion hmsg
      · simp only [htruthy, if_true]
        cases hu : env.updateError with
        | none => exact absurd hu hupd
        | some msg => exact ⟨⟨.raised msg, rfl⟩, rfl⟩
  exact ⟨key.1, key.2, by rw [key.2], by rw [key.2]⟩

/-- Instance of C5: the bed update raises after the patient insert went through. -/
theorem postPatients_failure_rolls_back_witness :
    (truthy (bodyFor (some "R10-B2")).bedId = true ∧ (Env.failingUpdate idB).updateError ≠ none) ∧
    (∃ msg, (postPatients wardStore (bodyFor (some "R10-B2")) (Env.failingUpdate idB)).response =
      some ⟨500, some false, .error msg⟩) ∧
    (postPatients wardStore (bodyFor (some "R10-B2")) (Env.failingUpdate idB)).store = wardStore ∧
    (postPatients wardStore (bodyFor (some "R10-B2")) (Env.failingUpdate idB)).store.patients =
      wardStore.patients ∧
    (postPatients wardStore (bodyFor (some "R10-B2")) (Env.failingUpdate idB)).store.beds =
      wardStore.beds :=
  ⟨⟨by decide, by decide⟩,
    postPatients_failure_rolls_back wardStore (bodyFor (some "R10-B2")) (Env.failingUpdate idB)
      (Or.inr ⟨by decide, by decide⟩)⟩

theorem Patient.findById_findByIdAndUpdate (ps : List Patient) (id : ObjectId)
    (f : Patient → Patient) (hf : ∀ p, (f p)._id = p._id) :
    Patient.findById (Patient.findByIdAndUpdate ps id f) id = (Patient.findById ps id).map f := by
  unfold Patient.findById Patient.findByIdAndUpdate
  apply find?_updateFirst
  intro a ha
  simpa [hf a] using ha

theorem Patient.findById_isSome_of_mem (ps : List Patient) (p : Patient) (hp : p ∈ ps) :
    ∃ q, Patient.findById ps p._id = some q := by
  cases h : Patient.findById ps p._id with
  | some q => exact ⟨q, rfl⟩
  | none =>
    unfold Patient.findById at h
    rw [List.find?_eq_none] at h
    exact absurd (h p hp) (by simp)

/-- C2: for every store and every `bedId` naming an existing bed whose `currentPatientId`
is the id of a patient of the patient collection, `POST /beds/discharge` answers with
success, after it the patient stored under that id has status "Discharged" and
`assignedBedId` null, and the bed found under `bedId` has `isOccupied = false` and
`currentPatientId` null. -/
theorem postBedsDischarge_discharges_patient (s : Store) (bedId : String) (b : Bed)
    (ref : String) (p : Patient)
    (hbed : Bed.findOne s.beds (some bedId) = some b)
    (href : b.currentPatientId = some ref)
    (hcast : castObjectId ref = some p._id)
    (hp : p ∈ s.patients) :
    (postBedsDischarge s (some bedId)).response =
      some ⟨200, some true, .message "Patient discharged"⟩ ∧
    (∃ q, Patient.findById (postBedsDischarge s (some bedId)).store.patients p._id = some q ∧
      q.status = some "Discharged" ∧ q.assignedBedId = none) ∧
    (∃ b', Bed.findOne (postBedsDischarge s (some bedId)).store.beds (some bedId) = some b' ∧
      b'.isOccupied = false ∧ b'.currentPatientId = none) := by
  have htruthy : truthy (some ref) = true := by
    simp [truthy, castObjectId_ne_empty ref p._id hcast]
  obtain ⟨q0, hq0⟩ := Patient.findById_isSome_of_mem s.patients p hp
  have hfind := Patient.findById_findByIdAndUpdate s.patients p._id Patient.discharge (fun _ => rfl)
  have hbedAfter := Bed.findOne_updateOne s.beds (some bedId) Bed.release (fun _ => rfl)
  have heq : postBedsDischarge s (some bedId) =
      ⟨{ s with patients := Patient.findByIdAndUpdate s.patients p._id Patient.discharge,
                beds := Bed.updateOne s.beds (some bedId) Bed.release },
        some ⟨200, some true, .message "Patient discharged"⟩⟩ := by
    unfold postBedsDischarge
    simp only [hbed, href, Option.bind, htruthy, if_true, hcast, Option.map]
  rw [heq]
  refine ⟨rfl, ⟨Patient.discharge q0, ?_, rfl, rfl⟩, ⟨Bed.release b, ?_, rfl, rfl⟩⟩
  · show Patient.findById (Patient.findByIdAndUpdate s.patients p._id Patient.discharge) p._id = _
    rw [hfind, hq0]; rfl
  · show Bed.findOne (Bed.updateOne s.beds (some bedId) Bed.release) (some bedId) = _
    rw [hbedAfter, hbed]; rfl

/-- Instance of C2: the discharge of the occupied bed of `wardStore`. -/
theorem postBedsDischarge_discharges_patient_witness :
    Bed.findOne wardStore.beds (some "R10-B1") = some wardBed ∧
    wardBed.currentPatientId = some idA.hex ∧
    castObjectId idA.hex = some wardPatient._id ∧
    wardPatient ∈ wardStore.patients ∧
    (postBedsDischarge wardStore (some "R10-B1")).response =
      some ⟨200, some true, .message "Patient discharged"⟩ ∧
    (∃ q, Patient.findById (postBedsDischarge wardStore (some "R10-B1")).store.patients
        wardPatient._id = some q ∧ q.status = some "Discharged" ∧ q.assignedBedId = none) ∧
    (∃ b', Bed.findOne (postBedsDischarge wardStore (some "R10-B1")).store.beds (some "R10-B1")
        = some b' ∧ b'.isOccupied = false ∧ b'.currentPatientId = none) :=
  ⟨by decide, rfl, by decide, by decide,
    postBedsDischarge_discharges_patient wardStore "R10-B1" wardBed idA.hex wardPatient
      (by decide) rfl (by decide) (by decide)⟩

/-- C7: for every store and every `bedId` such that no bed has that `bedId` or the bed
found under it has no current patient reference, `POST /beds/discharge` answers with
`success = true`, the patient collection is unchanged, the bed collection keeps its length
and every bed with another `bedId` stays at its place unchanged, and the bed found under
`bedId` afterwards (there is one exactly when there was one) has `isOccupied = false` and
`currentPatientId` null. -/
theorem postBedsDischarge_without_patient (s : Store) (bedId : Option String)
    (hfree : ∀ b, Bed.findOne s.beds bedId = some b → b.currentPatientId = none) :
    (postBedsDischarge s bedId).response =
      some ⟨200, some true, .message "Patient discharged"⟩ ∧
    (postBedsDischarge s bedId).store.patients = s.patients ∧
    (postBedsDischarge s bedId).store.beds.length = s.beds.length ∧
    (∀ (i : Nat) (b : Bed), s.beds[i]? = some b → b.bedId ≠ bedId →
      (postBedsDischarge s bedId).store.beds[i]? = some b) ∧
    ((Bed.findOne (postBedsDischarge s bedId).store.beds bedId).isSome =
      (Bed.findOne s.beds bedId).isSome) ∧
    (∀ b', Bed.findOne (postBedsDischarge s bedId).store.beds bedId = some b' →
      b'.isOccupied = false ∧ b'.currentPatientId = none) := by
  have hfalsy : truthy ((Bed.findOne s.beds bedId).bind (fun b => b.currentPatientId)) = false := by
    cases hb : Bed.findOne s.beds bedId with
    | none => rfl
    | some b => simp [hfree b hb, truthy]
  have hbedAfter := Bed.findOne_updateOne s.beds bedId Bed.release (fun _ => rfl)
  have heq : postBedsDischarge s bedId =
      ⟨{ s with beds := Bed.updateOne s.beds bedId Bed.release },
        some ⟨200, some true, .message "Patient discharged"⟩⟩ := by
    unfold postBedsDischarge
    simp only [hfalsy, Bool.false_eq_true, if_false]
  rw [heq]
  refine ⟨rfl, rfl, ?_, ?_, ?_, ?_⟩
  · exact length_updateFirst _ _ _
  · intro i b hi hb
    exact getElem?_updateFirst_of_not _ _ _ i b hi (by simpa [Bed.matches] using hb)
  · show (Bed.findOne (Bed.updateOne s.beds bedId Bed.release) bedId).isSome = _
    rw [hbedAfter]
    simp
  · intro b' hb'
    have hb'' : Bed.findOne (Bed.updateOne s.beds bedId Bed.release) bedId = some b' := hb'
    rw [hbedAfter] at hb''
    cases hb : Bed.findOne s.beds bedId with
    | none => rw [hb] at hb''; simp at hb''
    | some b =>
      rw [hb] at hb''
      simp only [Option.map, Option.some.injEq] at hb''
      subst hb''
      exact ⟨rfl, rfl⟩

/-- Instance of C7: the discharge of the free bed of `wardStore`. -/
theorem postBedsDischarge_without_patient_witness :
    Bed.findOne wardStore.beds (some "R10-B2") =
      some ⟨some "R10-B2", some "10", some 2, false, none⟩ ∧
    (postBedsDischarge wardStore (some "R10-B2")).response =
      some ⟨200, some true, .message "Patient discharged"⟩ ∧
    (postBedsDischarge wardStore (some "R10-B2")).store.patients = wardStore.patients ∧
    (postBedsDischarge wardStore (some "R10-B2")).store.beds.length = wardStore.beds.length :=
  have h := postBedsDischarge_without_patient wardStore (some "R10-B2") (by decide)
  ⟨by decide, h.1, h.2.1, h.2.2.1⟩

theorem Patient.discharged_kept_by_update (ps : List Patient) (id : ObjectId) (p : Patient)
    (hp : p ∈ ps) (hst : p.status = some "Discharged") :
    ∃ q ∈ Patient.findByIdAndUpdate ps id Patient.discharge,
      q._id = p._id ∧ q.status = some "Discharged" := by
  unfold Patient.findByIdAndUpdate
  induction ps with
  | nil => simp at hp
  | cons a as ih =>
    unfold updateFirst
    rcases List.mem_cons.mp hp with h | h
    · subst h
      split
      · exact ⟨Patient.discharge p, List.mem_cons_self _ _, rfl, rfl⟩
      · exact ⟨p, List.mem_cons_self _ _, rfl, hst⟩
    · split
      · exact ⟨p, List.mem_cons_of_mem _ h, rfl, hst⟩
      · obtain ⟨q, hq, h1, h2⟩ := ih h
        exact ⟨q, List.mem_cons_of_mem _ hq, h1, h2⟩

theorem postPatients_patients (s : Store) (body : PatientBody) (env : Env) :
    (postPatients s body env).store.patients = s.patients ∨
    (postPatients s body env).store.patients = s.patients ++ [Patient.new env.newId env.now body] := by
  unfold postPatients
  simp only [startTransaction, abortTransaction, commitTransaction]
  cases hsave : Patient.save s.patients (Patient.new env.newId env.now body) env.insertError with
  | error msg => exact Or.inl rfl
  | ok res =>
    have hres : res = (s.patients ++ [Patient.new env.newId env.now body], Patient.new env.newId env.now body) := by
      unfold Patient.save at hsave
      cases hf : env.insertError with
      | some m => rw [hf] at hsave; simp at hsave
      | none =>
        rw [hf] at hsave
        simp only at hsave
        split at hsave
        · simp at hsave
        · simp only [Except.ok.injEq] at hsave
          exact hsave.symm
    subst hres
    simp only
    split
    · cases env.updateError with
      | some msg => exact Or.inl rfl
      | none => exact Or.inr rfl
    · exact Or.inr rfl

theorem postBedsDischarge_patients (s : Store) (bedId : Option String) :
    (postBedsDischarge s bedId).store.patients = s.patients ∨
    ∃ id, (postBedsDischarge s bedId).store.patients =
      Patient.findByIdAndUpdate s.patients id Patient.discharge := by
  unfold postBedsDischarge
  by_cases ht : truthy ((Bed.findOne s.beds bedId).bind (fun b => b.currentPatientId)) = true
  · cases hc : ((Bed.findOne s.beds bedId).bind (fun b => b.currentPatientId)).bind castObjectId with
    | none => simp [ht, hc]
    | some id => exact Or.inr ⟨id, by simp [ht, hc]⟩
  · simp [ht]

/-- C8: "Discharged" is terminal: for every store, every environment and every request
to any of the ten routes, each patient whose status is "Discharged" before the request is
still in the patient collection, under the same `_id`, with status "Discharged" after it. -/
theorem handle_keeps_discharged (s : Store) (env : Env) (req : Request) (p : Patient)
    (hp : p ∈ s.patients) (hst : p.status = some "Discharged") :
    ∃ q ∈ (handle s env req).store.patients, q._id = p._id ∧ q.status = some "Discharged" := by
  have same : ∀ r : Reply, r.store.patients = s.patients →
      ∃ q ∈ r.store.patients, q._id = p._id ∧ q.status = some "Discharged" := by
    intro r hr
    rw [hr]
    exact ⟨p, hp, rfl, hst⟩
  cases req with
  | login email password =>
    apply same
    simp only [handle, postLogin]
    split <;> rfl
  | register body =>
    apply same
    simp only [handle, postUsersRegister]
    split <;> rfl
  | listUsers => exact same _ rfl
  | deleteUser id =>
    apply same
    simp only [handle, deleteUser]
    split <;> rfl
  | listBeds => exact same _ rfl
  | listPatients => exact same _ rfl
  | createPatient body =>
    rcases postPatients_patients s body env with h | h
    · exact same _ h
    · refine ⟨p, ?_, rfl, hst⟩
      show p ∈ (postPatients s body env).store.patients
      rw [h]
      exact List.mem_append_left _ hp
  | getPatient id =>
    apply same
    simp only [handle, getPatientById]
    split
    · rfl
    · split <;> rfl
  | latestVital bedId => exact same _ rfl
  | discharge bedId =>
    rcases postBedsDischarge_patients s bedId with h | ⟨id, h⟩
    · exact same _ h
    · show ∃ q ∈ (postBedsDischarge s bedId).store.patients, _
      rw [h]
      exact Patient.discharged_kept_by_update s.patients id p hp hst

/-- Instance of C8: a new admission after a discharge leaves the discharged patient as it
is. -/
theorem handle_keeps_discharged_witness :
    Patient.discharge wardPatient ∈ dischargedStore.patients ∧
    (Patient.discharge wardPatient).status = some "Discharged" ∧
    ∃ q ∈ (handle dischargedStore (Env.quiet idB) (.createPatient (bodyFor (some "R10-B1")))).store.patients,
      q._id = (Patient.discharge wardPatient)._id ∧ q.status = some "Discharged" :=
  ⟨by decide, rfl,
    handle_keeps_discharged dischargedStore (Env.quiet idB)
      (.createPatient (bodyFor (some "R10-B1"))) (Patient.discharge wardPatient) (by decide) rfl⟩

theorem mem_insertByTimestampDesc (v x : Vital) (l : List Vital) :
    x ∈ insertByTimestampDesc v l ↔ x = v ∨ x ∈ l := by
  induction l with
  | nil => simp [insertByTimestampDesc]
  | cons w ws ih =>
    unfold insertByTimestampDesc
    split
    · simp
    · simp only [List.mem_cons, ih]
      tauto

theorem mem_sortByTimestampDesc (x : Vital) (l : List Vital) :
    x ∈ sortByTimestampDesc l ↔ x ∈ l := by
  induction l with
  | nil => simp [sortByTimestampDesc]
  | cons w ws ih =>
    have : sortByTimestampDesc (w :: ws) = insertByTimestampDesc w (sortByTimestampDesc ws) := rfl
    rw [this, mem_insertByTimestampDesc, ih, List.mem_cons]

theorem pairwise_insertByTimestampDesc (v : Vital) (l : List Vital)
    (h : l.Pairwise (fun a b => b.timestamp ≤ a.timestamp)) :
    (insertByTimestampDesc v l).Pairwise (fun a b => b.timestamp ≤ a.timestamp) := by
  induction l with
  | nil => simp [insertByTimestampDesc]
  | cons w ws ih =>
    rw [List.pairwise_cons] at h
    unfold insertByTimestampDesc
    split
    · rename_i hlt
      rw [List.pairwise_cons]
      refine ⟨?_, List.pairwise_cons.mpr h⟩
      intro x hx
      rcases List.mem_cons.mp hx with hx | hx
      · subst hx; omega
      · have := h.1 x hx; omega
    · rename_i hge
      rw [List.pairwise_cons]
      refine ⟨?_, ih h.2⟩
      intro x hx
      rcases (mem_insertByTimestampDesc v x ws).mp hx with hx | hx
      · subst hx; omega
      · exact h.1 x hx

theorem pairwise_sortByTimestampDesc (l : List Vital) :
    (sortByTimestampDesc l).Pairwise (fun a b => b.timestamp ≤ a.timestamp) := by
  induction l with
  | nil => simp [sortByTimestampDesc]
  | cons w ws ih => exact pairwise_insertByTimestampDesc w _ ih

theorem Vital.findLatest_eq_none (vitals : List Vital) (bedId : Option String)
    (h : ∀ v ∈ vitals, v.bedId ≠ bedId) : Vital.findLatest vitals bedId = none := by
  have hnil : vitals.filter (fun v => decide (v.bedId = bedId)) = [] := by
    rw [List.filter_eq_nil_iff]
    intro v hv
    simpa using h v hv
  simp [Vital.findLatest, hnil, sortByTimestampDesc]

theorem Vital.findLatest_of_mem (vitals : List Vital) (bedId : Option String) (v : Vital)
    (hv : v ∈ vitals) (hb : v.bedId = bedId) :
    ∃ w, Vital.findLatest vitals bedId = some w ∧ w ∈ vitals ∧ w.bedId = bedId ∧
      ∀ x ∈ vitals, x.bedId = bedId → x.timestamp ≤ w.timestamp := by
  have hmem : ∀ x, x ∈ sortByTimestampDesc (vitals.filter (fun v => decide (v.bedId = bedId))) ↔
      x ∈ vitals ∧ x.bedId = bedId := by
    intro x
    rw [mem_sortByTimestampDesc, List.mem_filter]
    simp
  have hsorted := pairwise_sortByTimestampDesc (vitals.filter (fun v => decide (v.bedId = bedId)))
  unfold Vital.findLatest
  cases hl : sortByTimestampDesc (vitals.filter (fun v => decide (v.bedId = bedId))) with
  | nil =>
    have := (hmem v).mpr ⟨hv, hb⟩
    rw [hl] at this
    simp at this
  | cons w ws =>
    rw [hl] at hmem hsorted
    have hw := (hmem w).mp (List.mem_cons_self w ws)
    refine ⟨w, rfl, hw.1, hw.2, ?_⟩
    intro x hx hxb
    rcases List.mem_cons.mp ((hmem x).mpr ⟨hx, hxb⟩) with h | h
    · rw [h]
    · exact (List.pairwise_cons.mp hsorted).1 x h

/-- C9 as amended: for every store and every id string that casts to the `_id` of a
patient of the collection, `GET /patients/:id` answers 200 with the patient stored under
that `_id` and a `vitals` field: when some reading has `bedId` equal to the patient's
`assignedBedId`, `vitals` is one of those readings and no reading of that `bedId` has a
later timestamp; when no reading has that `bedId`, `vitals` is the empty object.  For a
well-formed id (one that casts to an `ObjectId`) under which no patient is stored the
response is 404. -/
theorem getPatientById_latest_vitals (s : Store) (id : String) (oid : ObjectId)
    (hcast : castObjectId id = some oid) :
    (∀ p ∈ s.patients, p._id = oid →
      ∃ q vitals, q ∈ s.patients ∧ q._id = oid ∧
        Patient.findById s.patients oid = some q ∧
        getPatientById s id = ⟨s, some ⟨200, some true, .patientWithVitals q vitals⟩⟩ ∧
        ((∃ v ∈ s.vitals, v.bedId = q.assignedBedId) →
          ∃ w, vitals = some w ∧ w ∈ s.vitals ∧ w.bedId = q.assignedBedId ∧
            ∀ x ∈ s.vitals, x.bedId = q.assignedBedId → x.timestamp ≤ w.timestamp) ∧
        ((∀ v ∈ s.vitals, v.bedId ≠ q.assignedBedId) → vitals = none)) ∧
    ((∀ p ∈ s.patients, p._id ≠ oid) →
      getPatientById s id = ⟨s, some ⟨404, some false, .plain⟩⟩) := by
  constructor
  · intro p hp hpid
    cases hq : Patient.findById s.patients oid with
    | none =>
      unfold Patient.findById at hq
      rw [List.find?_eq_none] at hq
      exact absurd (hq p hp) (by simp [hpid])
    | some q =>
      have hqmem : q ∈ s.patients := List.mem_of_find?_eq_some hq
      have hqid : q._id = oid := by
        have := List.find?_some hq
        simpa using this
      refine ⟨q, Vital.findLatest s.vitals q.assignedBedId, hqmem, hqid, rfl, ?_, ?_, ?_⟩
      · simp [getPatientById, hcast, hq]
      · rintro ⟨v, hv, hb⟩
        exact Vital.findLatest_of_mem s.vitals q.assignedBedId v hv hb
      · exact Vital.findLatest_eq_none s.vitals q.assignedBedId
  · intro hnone
    have hq : Patient.findById s.patients oid = none := by
      unfold Patient.findById
      rw [List.find?_eq_none]
      intro p hp
      simpa using hnone p hp
    simp [getPatientById, hcast, hq]

/-- Instance of C9 as amended: the id is given in upper case, the later of the two readings
of the bed is returned; on the empty store the same id gets 404. -/
theorem getPatientById_latest_vitals_witness :
    castObjectId "64B7F0C2A1D3E4F5A6B7C8D9" = some idA ∧
    getPatientById wardStore "64B7F0C2A1D3E4F5A6B7C8D9" =
      ⟨wardStore, some ⟨200, some true,
        .patientWithVitals ⟨idA, some "Asha", some d41, none, none, some "Stable", some 0, some "R10-B1", none⟩
          (some ⟨some "R10-B1", some d72, none, none, none, 200⟩)⟩⟩ ∧
    getPatientById Store.empty "64B7F0C2A1D3E4F5A6B7C8D9" =
      ⟨Store.empty, some ⟨404, some false, .plain⟩⟩ :=
  ⟨by decide, by decide,
    (getPatientById_latest_vitals Store.empty "64B7F0C2A1D3E4F5A6B7C8D9" idA (by decide)).2
      (by decide)⟩

/-- Counterexample to C9: no patient is stored under the id "abc", and the handler sends no
response at all, 404 or other, since the cast of "abc" to an `ObjectId` raises before the
lookup. -/
theorem getPatientById_malformed_id_counterexample :
    (∀ p ∈ wardStore.patients, p._id.hex ≠ "abc") ∧
    (getPatientById wardStore "abc").response = none ∧
    (getPatientById wardStore "abc").response ≠ some ⟨404, some false, .plain⟩ := by
  decide

theorem mem_updateFirst_of_not {α : Type} (p : α → Bool) (f : α → α) (l : List α) (a : α)
    (ha : a ∈ l) (hp : p a = false) : a ∈ updateFirst p f l := by
  induction l with
  | nil => simp at ha
  | cons c cs ih =>
    unfold updateFirst
    rcases List.mem_cons.mp ha with h | h
    · subst h
      simp [hp]
    · split
      · exact List.mem_cons_of_mem _ h
      · exact List.mem_cons_of_mem _ (ih h)

theorem mem_updateFirst_of_nodup {α β : Type} (p : α → Bool) (f : α → α) (g : α → β) (k : β)
    (hp : ∀ a, p a = true ↔ g a = k) (l : List α) (hnd : (l.map g).Nodup) (x : α)
    (hx : x ∈ updateFirst p f l) :
    (x ∈ l ∧ p x = false) ∨ ∃ a ∈ l, p a = true ∧ x = f a := by
  induction l with
  | nil => simp [updateFirst] at hx
  | cons a as ih =>
    rw [List.map_cons, List.nodup_cons] at hnd
    unfold updateFirst at hx
    split at hx
    · rename_i hpa
      rcases List.mem_cons.mp hx with h | h
      · exact Or.inr ⟨a, List.mem_cons_self _ _, hpa, h⟩
      · left
        refine ⟨List.mem_cons_of_mem _ h, ?_⟩
        cases hpx : p x with
        | false => rfl
        | true =>
          exfalso
          apply hnd.1
          have : g a = g x := by rw [(hp a).mp hpa, (hp x).mp hpx]
          rw [this]
          exact List.mem_map_of_mem g h
    · rename_i hpa
      rcases List.mem_cons.mp hx with h | h
      · left
        subst h
        exact ⟨List.mem_cons_self _ _, by simpa using hpa⟩
      · rcases ih hnd.2 h with ⟨h1, h2⟩ | ⟨c, hc, hpc, hxc⟩
        · exact Or.inl ⟨List.mem_cons_of_mem _ h1, h2⟩
        · exact Or.inr ⟨c, List.mem_cons_of_mem _ hc, hpc, hxc⟩

/-- The three ways a run of `POST /patients` leaves the store. -/
theorem postPatients_store_cases (s : Store) (body : PatientBody) (env : Env) :
    (postPatients s body env).store = s ∨
    ((∀ p ∈ s.patients, p._id ≠ env.newId) ∧ truthy body.bedId = false ∧
      (postPatients s body env).store =
        { s with patients := s.patients ++ [Patient.new env.newId env.now body] }) ∨
    ((∀ p ∈ s.patients, p._id ≠ env.newId) ∧ truthy body.bedId = true ∧
      (postPatients s body env).store =
        { s with patients := s.patients ++ [Patient.new env.newId env.now body],
                 beds := Bed.updateOne s.beds body.bedId (Bed.occupy env.newId) }) := by
  unfold postPatients
  simp only [startTransaction, abortTransaction, commitTransaction]
  cases hsave : Patient.save s.patients (Patient.new env.newId env.now body) env.insertError with
  | error msg => exact Or.inl rfl
  | ok res =>
    obtain ⟨_, hfresh, hres⟩ := Patient.save_ok _ _ _ _ hsave
    subst hres
    have hfresh' : ∀ p ∈ s.patients, p._id ≠ env.newId := hfresh
    by_cases ht : truthy body.bedId = true
    · cases hu : env.updateError with
      | some msg => simp [ht]
      | none => exact Or.inr (Or.inr ⟨hfresh', ht, by simp [ht, Patient.new]⟩)
    · have hf : truthy body.bedId = false := by simpa using ht
      exact Or.inr (Or.inl ⟨hfresh', hf, by simp [hf]⟩)

/-- The three ways a run of `POST /beds/discharge` leaves the store. -/
theorem postBedsDischarge_store_cases (s : Store) (bedId : Option String) :
    (postBedsDischarge s bedId).store = s ∨
    (truthy ((Bed.findOne s.beds bedId).bind (fun b => b.currentPatientId)) = false ∧
      (postBedsDischarge s bedId).store =
        { s with beds := Bed.updateOne s.beds bedId Bed.release }) ∨
    (∃ b ref oid, Bed.findOne s.beds bedId = some b ∧ b.currentPatientId = some ref ∧
      castObjectId ref = some oid ∧
      (postBedsDischarge s bedId).store =
        { s with patients := Patient.findByIdAndUpdate s.patients oid Patient.discharge,
                 beds := Bed.updateOne s.beds bedId Bed.release }) := by
  unfold postBedsDischarge
  by_cases ht : truthy ((Bed.findOne s.beds bedId).bind (fun b => b.currentPatientId)) = true
  · cases hb : Bed.findOne s.beds bedId with
    | none => rw [hb] at ht; simp [truthy] at ht
    | some b =>
      cases hr : b.currentPatientId with
      | none => rw [hb] at ht; simp [hr, truthy] at ht
      | some ref =>
        have ht' : truthy (some ref) = true := by
          rw [hb] at ht
          simpa only [Option.bind, hr] using ht
        cases hc : castObjectId ref with
        | none =>
          left
          simp [hb, hr, hc, ht']
        | some oid =>
          right; right
          refine ⟨b, ref, oid, rfl, hr, hc, ?_⟩
          simp [hr, hc, ht']
  · have hf : truthy ((Bed.findOne s.beds bedId).bind (fun b => b.currentPatientId)) = false := by
      simpa using ht
    exact Or.inr (Or.inl ⟨hf, by simp [hf]⟩)

theorem seedBeds_occupancy :
    ∀ b ∈ seedBeds, (b.isOccupied = true ↔ b.currentPatientId ≠ none) := by
  decide

theorem occupancy_updateOne (beds : List Bed) (bedId : Option String) (f : Bed → Bed)
    (hf : ∀ b, ((f b).isOccupied = true ↔ (f b).currentPatientId ≠ none))
    (h : ∀ b ∈ beds, (b.isOccupied = true ↔ b.currentPatientId ≠ none)) :
    ∀ b ∈ Bed.updateOne beds bedId f, (b.isOccupied = true ↔ b.currentPatientId ≠ none) := by
  intro b hb
  rcases mem_updateFirst _ _ _ b hb with h1 | ⟨a, _, _, hba⟩
  · exact h b h1
  · rw [hba]; exact hf a

theorem occupancy_postPatients (s : Store) (body : PatientBody) (env : Env)
    (h : ∀ b ∈ s.beds, (b.isOccupied = true ↔ b.currentPatientId ≠ none)) :
    ∀ b ∈ (postPatients s body env).store.beds,
      (b.isOccupied = true ↔ b.currentPatientId ≠ none) := by
  rcases postPatients_store_cases s body env with e | ⟨_, _, e⟩ | ⟨_, _, e⟩
  · rw [e]; exact h
  · rw [e]; exact h
  · rw [e]
    exact occupancy_updateOne s.beds body.bedId (Bed.occupy env.newId)
      (fun b => by simp [Bed.occupy]) h

theorem occupancy_postBedsDischarge (s : Store) (bedId : Option String)
    (h : ∀ b ∈ s.beds, (b.isOccupied = true ↔ b.currentPatientId ≠ none)) :
    ∀ b ∈ (postBedsDischarge s bedId).store.beds,
      (b.isOccupied = true ↔ b.currentPatientId ≠ none) := by
  have hrel := occupancy_updateOne s.beds bedId Bed.release (fun b => by simp [Bed.release]) h
  rcases postBedsDischarge_store_cases s bedId with e | ⟨_, e⟩ | ⟨_, _, _, _, _, _, e⟩
  · rw [e]; exact h
  · rw [e]; exact hrel
  · rw [e]; exact hrel

/-- C3: in every state reached from the empty store by the bootstrap followed by any
finite sequence of `POST /patients` and `POST /beds/discharge` runs, every bed has
`isOccupied` true if and only if its `currentPatientId` is non-null. -/
theorem reachable_occupied_iff_patient_reference (s : Store) (h : Reachable s) :
    ∀ b ∈ s.beds, (b.isOccupied = true ↔ b.currentPatientId ≠ none) := by
  induction h with
  | boot => exact seedBeds_occupancy
  | createPatient body env _ ih => exact occupancy_postPatients _ body env ih
  | discharge bedId _ ih => exact occupancy_postBedsDischarge _ bedId ih

/-- Instance of C3 on the seeded store after one admission. -/
theorem reachable_occupied_iff_patient_reference_witness :
    Reachable admitted ∧ admittedBed ∈ admitted.beds ∧
    (admittedBed.isOccupied = true ↔ admittedBed.currentPatientId ≠ none) :=
  have hreach : Reachable admitted :=
    Reachable.createPatient (bodyFor (some "R10-B1")) (Env.quiet idA) Reachable.boot
  ⟨hreach, by decide,
    reachable_occupied_iff_patient_reference admitted hreach admittedBed (by decide)⟩

theorem seedBeds_bedIds_nodup : (seedBeds.map (fun b => b.bedId)).Nodup := by
  decide

theorem seedBeds_bedIds_truthy : ∀ k ∈ seedBeds.map (fun b => b.bedId), truthy k = true := by
  decide

theorem Bed.findOne_some (beds : List Bed) (k : Option String) (b : Bed)
    (h : Bed.findOne beds k = some b) : b ∈ beds ∧ b.bedId = k := by
  unfold Bed.findOne at h
  refine ⟨List.mem_of_find?_eq_some h, ?_⟩
  have := List.find?_some h
  simpa [Bed.matches] using this

theorem Linked.bed_unique {s : Store} (h : Linked s) (b1 b2 : Bed)
    (h1 : b1 ∈ s.beds) (h2 : b2 ∈ s.beds) (e : b1.bedId = b2.bedId) : b1 = b2 := by
  have hnd : (s.beds.map (fun b => b.bedId)).Nodup := by
    rw [h.bedIds]; exact seedBeds_bedIds_nodup
  exact List.inj_on_of_nodup_map hnd h1 h2 e

theorem Linked.bedId_truthy {s : Store} (h : Linked s) (b : Bed) (hb : b ∈ s.beds) :
    truthy b.bedId = true := by
  apply seedBeds_bedIds_truthy
  rw [← h.bedIds]
  exact List.mem_map_of_mem (fun b => b.bedId) hb

theorem Linked.findOne_of_mem {s : Store} (h : Linked s) (b : Bed) (hb : b ∈ s.beds) :
    Bed.findOne s.beds b.bedId = some b := by
  cases hf : Bed.findOne s.beds b.bedId with
  | none =>
    unfold Bed.findOne at hf
    rw [List.find?_eq_none] at hf
    exact absurd (hf b hb) (by simp [Bed.matches])
  | some c =>
    obtain ⟨hc, hcid⟩ := Bed.findOne_some _ _ _ hf
    rw [h.bed_unique c b hc hb hcid]

theorem linked_boot : Linked (initializeDatabase Store.empty) where
  bedIds := rfl
  occupancy := seedBeds_occupancy
  patientIds := List.nodup_nil
  backRef := by
    intro p hp
    exact absurd hp (List.not_mem_nil p)

theorem nodup_ids_append (ps : List Patient) (doc : Patient)
    (hnd : (ps.map (fun p => p._id)).Nodup) (hfresh : ∀ p ∈ ps, p._id ≠ doc._id) :
    ((ps ++ [doc]).map (fun p => p._id)).Nodup := by
  rw [List.map_append, List.nodup_append]
  refine ⟨hnd, by simp, ?_⟩
  intro x hx hx'
  simp only [List.map_cons, List.map_nil, List.mem_singleton] at hx'
  obtain ⟨p, hp, hpx⟩ := List.mem_map.mp hx
  exact hfresh p hp (hpx.trans hx')

theorem linked_postPatients (s : Store) (body : PatientBody) (env : Env) (h : Linked s)
    (hfree : ∀ bedId, body.bedId = some bedId →
      ∃ b, Bed.findOne s.beds (some bedId) = some b ∧ b.isOccupied = false) :
    Linked (postPatients s body env).store := by
  rcases postPatients_store_cases s body env with e | ⟨hfresh, hfalsy, e⟩ | ⟨hfresh, _, e⟩
  · rw [e]; exact h
  · rw [e]
    refine ⟨h.bedIds, h.occupancy, nodup_ids_append _ _ h.patientIds hfresh, ?_⟩
    intro p hp k hk
    rcases List.mem_append.mp hp with hp | hp
    · exact h.backRef p hp k hk
    · exfalso
      rw [List.mem_singleton] at hp
      subst hp
      have hk' : body.bedId = some k := hk
      obtain ⟨b, hb, _⟩ := hfree k hk'
      obtain ⟨hbm, hbid⟩ := Bed.findOne_some _ _ _ hb
      have := h.bedId_truthy b hbm
      rw [hbid, ← hk', hfalsy] at this
      exact Bool.noConfusion this
  · rw [e]
    refine ⟨?_, ?_, nodup_ids_append _ _ h.patientIds hfresh, ?_⟩
    · show (Bed.updateOne s.beds body.bedId (Bed.occupy env.newId)).map (fun b => b.bedId) = _
      rw [← h.bedIds]
      exact map_updateFirst (Bed.matches body.bedId) (Bed.occupy env.newId) (fun b => b.bedId)
        (fun _ => rfl) s.beds
    · exact occupancy_updateOne s.beds body.bedId (Bed.occupy env.newId)
        (fun b => by simp [Bed.occupy]) h.occupancy
    · intro p hp k hk
      show ∃ b ∈ Bed.updateOne s.beds body.bedId (Bed.occupy env.newId), _
      rcases List.mem_append.mp hp with hp | hp
      · obtain ⟨b0, hb0, hb0id, hb0ref⟩ := h.backRef p hp k hk
        refine ⟨b0, ?_, hb0id, hb0ref⟩
        apply mem_updateFirst_of_not _ _ _ _ hb0
        cases hm : Bed.matches body.bedId b0 with
        | false => rfl
        | true =>
          exfalso
          have hbody : body.bedId = some k := by
            have : b0.bedId = body.bedId := by simpa [Bed.matches] using hm
            rw [← this, hb0id]
          obtain ⟨b, hb, hbfree⟩ := hfree k hbody
          obtain ⟨hbm, hbid⟩ := Bed.findOne_some _ _ _ hb
          have hbb : b = b0 := h.bed_unique b b0 hbm hb0 (hbid.trans hb0id.symm)
          subst hbb
          have := (h.occupancy b hbm).mpr (by rw [hb0ref]; simp)
          rw [hbfree] at this
          exact Bool.noConfusion this
      · rw [List.mem_singleton] at hp
        subst hp
        have hk' : body.bedId = some k := hk
        obtain ⟨b, hb, _⟩ := hfree k hk'
        have hfound := Bed.findOne_updateOne s.beds (some k) (Bed.occupy env.newId) (fun _ => rfl)
        rw [hb] at hfound
        obtain ⟨hm, hid⟩ := Bed.findOne_some _ _ _ hfound
        rw [hk']
        exact ⟨Bed.occupy env.newId b, hm, hid, rfl⟩

theorem linked_release_beds (s : Store) (bedId : Option String) (h : Linked s)
    (ps : List Patient)
    (hps : ∀ p ∈ ps, ∀ k, p.assignedBedId = some k →
      ∃ b ∈ s.beds, b.bedId = some k ∧ b.currentPatientId = some p._id.hex ∧ b.bedId ≠ bedId)
    (hnd : (ps.map (fun p => p._id)).Nodup) :
    Linked { s with patients := ps, beds := Bed.updateOne s.beds bedId Bed.release } := by
  refine ⟨?_, ?_, hnd, ?_⟩
  · show (Bed.updateOne s.beds bedId Bed.release).map (fun b => b.bedId) = _
    rw [← h.bedIds]
    exact map_updateFirst (Bed.matches bedId) Bed.release (fun b => b.bedId) (fun _ => rfl) s.beds
  · exact occupancy_updateOne s.beds bedId Bed.release (fun b => by simp [Bed.release])
      h.occupancy
  · intro p hp k hk
    obtain ⟨b0, hb0, hb0id, hb0ref, hne⟩ := hps p hp k hk
    refine ⟨b0, ?_, hb0id, hb0ref⟩
    exact mem_updateFirst_of_not _ _ _ _ hb0 (by simpa [Bed.matches] using hne)

theorem linked_postBedsDischarge (s : Store) (bedId : Option String) (h : Linked s) :
    Linked (postBedsDischarge s bedId).store := by
  rcases postBedsDischarge_store_cases s bedId with e | ⟨hfalsy, e⟩ | ⟨b, ref, oid, hb, href, hcast, e⟩
  · rw [e]; exact h
  · rw [e]
    apply linked_release_beds s bedId h s.patients _ h.patientIds
    intro p hp k hk
    obtain ⟨b0, hb0, hb0id, hb0ref⟩ := h.backRef p hp k hk
    refine ⟨b0, hb0, hb0id, hb0ref, ?_⟩
    intro hmatch
    have hfound := h.findOne_of_mem b0 hb0
    rw [hmatch] at hfound
    rw [hfound] at hfalsy
    simp only [Option.bind, hb0ref, truthy_hex] at hfalsy
    exact Bool.noConfusion hfalsy
  · rw [e]
    obtain ⟨hbm, hbid⟩ := Bed.findOne_some _ _ _ hb
    apply linked_release_beds s bedId h
    · intro q hq k hk
      have hq' := mem_updateFirst_of_nodup (fun p : Patient => decide (p._id = oid)) Patient.discharge
        (fun p => p._id) oid (fun a => by simp) s.patients h.patientIds q hq
      rcases hq' with ⟨hqm, hqne⟩ | ⟨a, _, _, hqa⟩
      · obtain ⟨b0, hb0, hb0id, hb0ref⟩ := h.backRef q hqm k hk
        refine ⟨b0, hb0, hb0id, hb0ref, ?_⟩
        intro hmatch
        have hbb : b0 = b := h.bed_unique b0 b hb0 hbm (hmatch.trans hbid.symm)
        subst hbb
        rw [hb0ref] at href
        have hrefeq : q._id.hex = ref := Option.some.inj href
        rw [← hrefeq, castObjectId_hex] at hcast
        have : q._id = oid := Option.some.inj hcast
        simp [this] at hqne
      · rw [hqa] at hk
        simp [Patient.discharge] at hk
    · show ((Patient.findByIdAndUpdate s.patients oid Patient.discharge).map (fun p => p._id)).Nodup
      have : (Patient.findByIdAndUpdate s.patients oid Patient.discharge).map (fun p => p._id)
          = s.patients.map (fun p => p._id) :=
        map_updateFirst (fun p : Patient => decide (p._id = oid)) Patient.discharge (fun p => p._id)
          (fun _ => rfl) s.patients
      rw [this]
      exact h.patientIds

theorem linked_of_reachable (s : Store) (h : ReachableAssigningFreeBeds s) : Linked s := by
  induction h with
  | boot => exact linked_boot
  | createPatient body env _ hfree ih => exact linked_postPatients _ body env ih hfree
  | discharge bedId _ ih => exact linked_postBedsDischarge _ bedId ih

/-- C4 as amended: in every state reached from the empty store by the bootstrap followed
by any finite sequence of `POST /patients` and `POST /beds/discharge` runs in which each
`POST /patients` that carries a `bedId` names an existing bed that is unoccupied at that
moment, every patient whose `assignedBedId` is non-null corresponds to a bed with that
`bedId` whose `currentPatientId` equals that patient's id. -/
theorem reachable_bed_reference_answered (s : Store) (h : ReachableAssigningFreeBeds s) :
    ∀ p ∈ s.patients, ∀ bedId, p.assignedBedId = some bedId →
      ∃ b ∈ s.beds, b.bedId = some bedId ∧ b.currentPatientId = some p._id.hex :=
  (linked_of_reachable s h).backRef

/-- Instance of C4 as amended on the seeded store after one admission to a free bed. -/
theorem reachable_bed_reference_answered_witness :
    ReachableAssigningFreeBeds admitted ∧
    Patient.new idA 1700000000000 (bodyFor (some "R10-B1")) ∈ admitted.patients ∧
    ∃ b ∈ admitted.beds, b.bedId = some "R10-B1" ∧ b.currentPatientId = some idA.hex :=
  have hreach : ReachableAssigningFreeBeds admitted :=
    ReachableAssigningFreeBeds.createPatient (bodyFor (some "R10-B1")) (Env.quiet idA)
      ReachableAssigningFreeBeds.boot (by
        intro k hk
        have hk' : k = "R10-B1" := (Option.some.inj hk).symm
        subst hk'
        exact ⟨⟨some "R10-B1", some "10", some 1, false, none⟩, by decide, rfl⟩)
  ⟨hreach, by decide,
    reachable_bed_reference_answered admitted hreach
      (Patient.new idA 1700000000000 (bodyFor (some "R10-B1"))) (by decide) "R10-B1" rfl⟩

/-- Counterexample to C4: after the bootstrap and one successful `POST /patients` naming
`R999-B1`, the new patient refers to a bed that does not exist; after two successful
admissions to `R10-B1`, the first patient still refers to the bed and the bed refers to the
second patient. -/
theorem reachable_dangling_bed_reference_counterexample :
    (Reachable (postPatients seeded (bodyFor (some "R999-B1")) (Env.quiet idA)).store ∧
      (postPatients seeded (bodyFor (some "R999-B1")) (Env.quiet idA)).response =
        some ⟨200, some true, .patient (Patient.new idA 1700000000000 (bodyFor (some "R999-B1")))⟩ ∧
      Patient.new idA 1700000000000 (bodyFor (some "R999-B1")) ∈
        (postPatients seeded (bodyFor (some "R999-B1")) (Env.quiet idA)).store.patients ∧
      (Patient.new idA 1700000000000 (bodyFor (some "R999-B1"))).assignedBedId = some "R999-B1" ∧
      ¬ ∃ b ∈ (postPatients seeded (bodyFor (some "R999-B1")) (Env.quiet idA)).store.beds,
        b.bedId = some "R999-B1" ∧ b.currentPatientId = some idA.hex) ∧
    (Reachable admittedTwice ∧
      Patient.new idA 1700000000000 (bodyFor (some "R10-B1")) ∈ admittedTwice.patients ∧
      (Patient.new idA 1700000000000 (bodyFor (some "R10-B1"))).assignedBedId = some "R10-B1" ∧
      ¬ ∃ b ∈ admittedTwice.beds, b.bedId = some "R10-B1" ∧ b.currentPatientId = some idA.hex) :=
  ⟨⟨Reachable.createPatient (bodyFor (some "R999-B1")) (Env.quiet idA) Reachable.boot,
      by decide, by decide, rfl, by decide⟩,
    ⟨Reachable.createPatient (bodyFor (some "R10-B1")) (Env.quiet idB)
        (Reachable.createPatient (bodyFor (some "R10-B1")) (Env.quiet idA) Reachable.boot),
      by decide, rfl, by decide⟩⟩

theorem reachable_bedIds (s : Store) (h : Reachable s) :
    s.beds.map (fun b => b.bedId) = seedBeds.map (fun b => b.bedId) := by
  induction h with
  | boot => rfl
  | @createPatient s body env _ ih =>
    rcases postPatients_store_cases s body env with e | ⟨_, _, e⟩ | ⟨_, _, e⟩
    · rw [e]; exact ih
    · rw [e]; exact ih
    · rw [e, ← ih]
      exact map_updateFirst (Bed.matches body.bedId) (Bed.occupy env.newId) (fun b => b.bedId)
        (fun _ => rfl) s.beds
  | @discharge s bedId _ ih =>
    have hrel : (Bed.updateOne s.beds bedId Bed.release).map (fun b => b.bedId) =
        s.beds.map (fun b => b.bedId) :=
      map_updateFirst (Bed.matches bedId) Bed.release (fun b => b.bedId) (fun _ => rfl) s.beds
    rcases postBedsDischarge_store_cases s bedId with e | ⟨_, e⟩ | ⟨_, _, _, _, _, _, e⟩
    · rw [e]; exact ih
    · rw [e, ← ih]; exact hrel
    · rw [e, ← ih]; exact hrel

/-- C1: for every store the server reaches and every `POST /patients` whose `bedId` names
a bed that exists in the bed collection and is unoccupied, when the handler answers with
success the body carries the new patient, the patient collection holds it under its `_id`
with `assignedBedId` equal to the supplied `bedId`, and the bed found under that `bedId`
has `isOccupied = true` and `currentPatientId` equal to the new patient's id. -/
theorem postPatients_assigns_bed (s : Store) (hs : Reachable s) (body : PatientBody)
    (env : Env) (bedId : String) (b : Bed)
    (hbody : body.bedId = some bedId)
    (hbed : Bed.findOne s.beds (some bedId) = some b) (_hfree : b.isOccupied = false)
    (hok : ∃ r, (postPatients s body env).response = some r ∧ r.success = some true) :
    ∃ p b',
      (postPatients s body env).response = some ⟨200, some true, .patient p⟩ ∧
      p._id = env.newId ∧
      p ∈ (postPatients s body env).store.patients ∧
      Patient.findById (postPatients s body env).store.patients env.newId = some p ∧
      p.assignedBedId = some bedId ∧
      Bed.findOne (postPatients s body env).store.beds (some bedId) = some b' ∧
      b'.isOccupied = true ∧
      b'.currentPatientId = some p._id.hex := by
  obtain ⟨hbm, hbid⟩ := Bed.findOne_some _ _ _ hbed
  have htruthy : truthy b.bedId = true := by
    apply seedBeds_bedIds_truthy
    rw [← reachable_bedIds s hs]
    exact List.mem_map_of_mem (fun b => b.bedId) hbm
  have hne : bedId ≠ "" := by
    rw [hbid] at htruthy
    simpa [truthy] using htruthy
  exact postPatients_success_assigns s body env bedId b hbody hne hbed hok

/-- Instance of C1: the first admission to bed `R10-B1` of the seeded store. -/
theorem postPatients_assigns_bed_witness :
    Reachable seeded ∧
    (bodyFor (some "R10-B1")).bedId = some "R10-B1" ∧
    Bed.findOne seeded.beds (some "R10-B1") =
      some ⟨some "R10-B1", some "10", some 1, false, none⟩ ∧
    ∃ p b',
      (postPatients seeded (bodyFor (some "R10-B1")) (Env.quiet idA)).response =
        some ⟨200, some true, .patient p⟩ ∧
      p._id = idA ∧
      p ∈ (postPatients seeded (bodyFor (some "R10-B1")) (Env.quiet idA)).store.patients ∧
      Patient.findById (postPatients seeded (bodyFor (some "R10-B1")) (Env.quiet idA)).store.patients
        idA = some p ∧
      p.assignedBedId = some "R10-B1" ∧
      Bed.findOne (postPatients seeded (bodyFor (some "R10-B1")) (Env.quiet idA)).store.beds
        (some "R10-B1") = some b' ∧
      b'.isOccupied = true ∧
      b'.currentPatientId = some p._id.hex :=
  ⟨Reachable.boot, rfl, by decide,
    postPatients_assigns_bed seeded Reachable.boot (bodyFor (some "R10-B1")) (Env.quiet idA)
      "R10-B1" ⟨some "R10-B1", some "10", some 1, false, none⟩ rfl (by decide) rfl
      ⟨⟨200, some true, .patient (Patient.new idA 1700000000000 (bodyFor (some "R10-B1")))⟩,
        by decide, rfl⟩⟩

/-- C6 as amended: for every store and every `POST /patients` whose supplied `bedId`
matches no bed of the bed collection, the bed collection after the call is what it was
before it; and when neither store call raises (the store reports no error and the `_id`
of the new patient is not yet in the patient collection) the handler answers with
success and the new patient is appended to the patient collection with `assignedBedId`
equal to the supplied string. -/
theorem postPatients_unknown_bed_keeps_beds (s : Store) (body : PatientBody) (env : Env)
    (bedId : String)
    (hbody : body.bedId = some bedId)
    (hnone : ∀ b ∈ s.beds, b.bedId ≠ some bedId) :
    (postPatients s body env).store.beds = s.beds ∧
    ((∀ p ∈ s.patients, p._id ≠ env.newId) → env.insertError = none →
      env.updateError = none →
      (postPatients s body env).response =
        some ⟨200, some true, .patient (Patient.new env.newId env.now body)⟩ ∧
      (postPatients s body env).store.patients =
        s.patients ++ [Patient.new env.newId env.now body] ∧
      (Patient.new env.newId env.now body).assignedBedId = some bedId) := by
  have hbeds : Bed.updateOne s.beds body.bedId (Bed.occupy env.newId) = s.beds := by
    unfold Bed.updateOne
    apply updateFirst_eq_self
    intro b hb
    rw [hbody]
    simpa [Bed.matches] using hnone b hb
  constructor
  · rcases postPatients_store_cases s body env with e | ⟨_, _, e⟩ | ⟨_, _, e⟩
    · rw [e]
    · rw [e]
    · rw [e]; exact hbeds
  · intro hfresh hins hupd
    have hsave := Patient.save_of_fresh s.patients (Patient.new env.newId env.now body) hfresh
    refine ⟨?_, ?_, hbody⟩
    · unfold postPatients
      simp only [startTransaction, abortTransaction, commitTransaction, hins, hupd, hsave]
      split <;> rfl
    · unfold postPatients
      simp only [startTransaction, abortTransaction, commitTransaction, hins, hupd, hsave]
      split <;> rfl

/-- Instance of C6 as amended: an admission to `R999-B1`, which the seeded store does not
have. -/
theorem postPatients_unknown_bed_keeps_beds_witness :
    (bodyFor (some "R999-B1")).bedId = some "R999-B1" ∧
    (postPatients seeded (bodyFor (some "R999-B1")) (Env.quiet idA)).store.beds = seeded.beds ∧
    (postPatients seeded (bodyFor (some "R999-B1")) (Env.quiet idA)).response =
      some ⟨200, some true, .patient (Patient.new idA 1700000000000 (bodyFor (some "R999-B1")))⟩ ∧
    (postPatients seeded (bodyFor (some "R999-B1")) (Env.quiet idA)).store.patients =
      seeded.patients ++ [Patient.new idA 1700000000000 (bodyFor (some "R999-B1"))] ∧
    (Patient.new idA 1700000000000 (bodyFor (some "R999-B1"))).assignedBedId = some "R999-B1" :=
  have h := postPatients_unknown_bed_keeps_beds seeded (bodyFor (some "R999-B1")) (Env.quiet idA)
    "R999-B1" rfl (by decide)
  ⟨rfl, h.1, h.2 (by decide) rfl rfl⟩

/-- Counterexample to C6: in the store reached by one admission, a further
`POST /patients` names `R999-B1`, which matches no bed, and is created under the `_id` of
the stored patient (the body carries it); the insert is refused, the handler answers 500
and no patient is added. -/
theorem postPatients_stored_id_counterexample :
    Reachable admitted ∧
    (bodyFor (some "R999-B1")).bedId = some "R999-B1" ∧
    (∀ b ∈ admitted.beds, b.bedId ≠ some "R999-B1") ∧
    (∃ p ∈ admitted.patients, p._id = (Env.quiet idA).newId) ∧
    (postPatients admitted (bodyFor (some "R999-B1")) (Env.quiet idA)).response =
      some ⟨500, some false, .error .duplicateKey⟩ ∧
    (postPatients admitted (bodyFor (some "R999-B1")) (Env.quiet idA)).store.patients =
      admitted.patients :=
  ⟨Reachable.createPatient (bodyFor (some "R10-B1")) (Env.quiet idA) Reachable.boot,
    rfl, by decide, by decide, by decide, by decide⟩

end Hospital
